import Mathlib

/-!
Verification development for the sleep-export analysis pipeline
(`step-1-clean.py` and `step-2-analyze.py`).

The two Python transformation stages are shallowly embedded below:
pure functions become Lean functions, Python exceptions become
`Except` error values, and floating point arithmetic on the small
decimal payloads of this pipeline is modelled exactly in `ℚ`.
String primitives are re-implemented over `List Char` so that every
definition evaluates inside the kernel.
-/

/-- Decidable equality of `Except` results, used to evaluate the embedded
pipeline on concrete inputs. -/
instance instDecidableEqExcept {ε α : Type} [DecidableEq ε] [DecidableEq α] :
    DecidableEq (Except ε α)
  | .ok a, .ok b =>
    if h : a = b then .isTrue (by rw [h]) else .isFalse (by intro c; cases c; exact h rfl)
  | .error a, .error b =>
    if h : a = b then .isTrue (by rw [h]) else .isFalse (by intro c; cases c; exact h rfl)
  | .ok _, .error _ => .isFalse (by intro c; cases c)
  | .error _, .ok _ => .isFalse (by intro c; cases c)

namespace SleepPipeline

/-! ## Primitive string and number helpers -/

/-- Numeric value of a run of decimal digit characters. -/
def digitsToNat (cs : List Char) : Nat :=
  cs.foldl (fun a c => 10 * a + (c.toNat - 48)) 0

/-- Magnitude part of a Python `float()` literal: a run of digits with an
optional fractional part (`"120000"`, `"1."`, `".5"`, `"3.25"`).
Returns `none` where Python `float()` raises `ValueError`. -/
def pyFloatMag (cs : List Char) : Option ℚ :=
  let ip := cs.takeWhile Char.isDigit
  match cs.dropWhile Char.isDigit with
  | [] => if ip.isEmpty then none else some ((digitsToNat ip : ℚ))
  | d :: frac =>
      if d = '.' then
        if frac.all Char.isDigit && !(ip.isEmpty && frac.isEmpty) then
          some ((digitsToNat ip : ℚ) + (digitsToNat frac : ℚ) / ((10 : ℚ) ^ frac.length))
        else none
      else none

/-- Models Python `float(s)` on the simple decimal literals that occur in this
pipeline: an optional sign followed by digits with an optional fractional
part. Any other shape (in particular a string with an embedded hyphen such
as `"120000-5000"`) is a `ValueError`, modelled as `none`. -/
def pyFloat? (s : String) : Option ℚ :=
  match s.data with
  | [] => none
  | c :: cs =>
    if c = '-' then (pyFloatMag cs).map (fun q => -q)
    else if c = '+' then pyFloatMag cs
    else pyFloatMag (c :: cs)

/-- Models Python `s.split("-")[0]`: the characters before the first hyphen. -/
def firstSeg (s : String) : String :=
  ⟨s.data.takeWhile (fun c => c != '-')⟩

/-- Models Python `s.split("-", 1)[1]`: everything after the first hyphen. -/
def afterSeg (s : String) : String :=
  ⟨(s.data.dropWhile (fun c => c != '-')).drop 1⟩

/-- Models Python `str.strip()`: remove leading and trailing whitespace. -/
def strTrim (s : String) : String :=
  ⟨((s.data.dropWhile Char.isWhitespace).reverse.dropWhile Char.isWhitespace).reverse⟩

/-- Models Python `str.startswith(p)`. -/
def strStartsWith (s p : String) : Bool :=
  p.data.isPrefixOf s.data

/-- Models Python `c in s` for a single character. -/
def strContains (s : String) (c : Char) : Bool :=
  s.data.contains c

/-- Models Python `s.split(sep)` for a one-character separator, as used by
the CSV decoding of one aligned header/data pair. -/
def splitChar (sep : Char) : List Char → List (List Char)
  | [] => [[]]
  | ch :: rest =>
    match splitChar sep rest with
    | [] => if ch == sep then [[], []] else [[ch]]
    | g :: gs => if ch == sep then [] :: g :: gs else (ch :: g) :: gs

/-- Split a string on a one-character separator. -/
def strSplit (s : String) (sep : Char) : List String :=
  (splitChar sep s.data).map (fun cs => ⟨cs⟩)

/-! ## Calendar arithmetic

Timestamps are modelled as minutes.  `daysFromCivil` is the standard
civil-days conversion; 1970-01-01 (day 0) is a Thursday. -/

def isLeap (y : Int) : Bool :=
  (y % 4 == 0 && y % 100 != 0) || (y % 400 == 0)

def daysInMonth (y : Int) (m : Nat) : Nat :=
  if m == 2 then (if isLeap y then 29 else 28)
  else if m == 4 || m == 6 || m == 9 || m == 11 then 30
  else 31

/-- Number of days from 1970-01-01 to the civil date `y-m-d`. -/
def daysFromCivil (y0 : Int) (m d : Nat) : Int :=
  let y : Int := if m ≤ 2 then y0 - 1 else y0
  let era : Int := Int.fdiv y 400
  let yoe : Nat := (y - era * 400).toNat
  let mp : Nat := if m > 2 then m - 3 else m + 9
  let doy : Nat := (153 * mp + 2) / 5 + d - 1
  let doe : Nat := yoe * 365 + yoe / 4 - yoe / 100 + doy
  era * 146097 + (doe : Int) - 719468

/-- A zone-naive local date-time, as produced by `datetime.strptime`. -/
structure Naive where
  year : Int
  month : Nat
  day : Nat
  hour : Nat
  minute : Nat
deriving DecidableEq

def Naive.toMinutes (n : Naive) : Int :=
  1440 * daysFromCivil n.year n.month n.day + 60 * (n.hour : Int) + (n.minute : Int)

/-- A time zone, modelled as a fixed offset in minutes east of UTC.  The
actual zone database is external to the repository (`pytz`); per the design
notes it is injected as a pure resolution capability. -/
structure Tz where
  offset : Int
deriving DecidableEq

/-- An absolute instant together with the offset it is expressed in,
modelling an aware `datetime` (minutes since the epoch, offset minutes). -/
structure Timestamp where
  instant : Int
  offset : Int
deriving DecidableEq

/-- Models `tz.localize(naive)`: interpret a naive local time in `tz`. -/
def localize (tz : Tz) (n : Naive) : Timestamp :=
  ⟨n.toMinutes - tz.offset, tz.offset⟩

/-- Models `t.astimezone(target)`: same instant, re-expressed in `target`. -/
def astimezone (target : Tz) (t : Timestamp) : Timestamp :=
  ⟨t.instant, target.offset⟩

def mkNaive? (y : Nat) (m d hh mm : Nat) : Option Naive :=
  if 1 ≤ m ∧ m ≤ 12 ∧ 1 ≤ d ∧ d ≤ daysInMonth (y : Int) m ∧ hh ≤ 23 ∧ mm ≤ 59 then
    some ⟨(y : Int), m, d, hh, mm⟩
  else none

/-- Models `datetime.strptime(s, "%d. %m. %Y %H:%M")`: digit runs joined by
the literal separators of the fixed format, with calendar validation.
Returns `none` where `strptime` raises `ValueError`. -/
def parseDT (s : String) : Option Naive :=
  let cs := s.data
  let dayD := cs.takeWhile Char.isDigit
  match cs.dropWhile Char.isDigit with
  | '.' :: ' ' :: r2 =>
    let monD := r2.takeWhile Char.isDigit
    match r2.dropWhile Char.isDigit with
    | '.' :: ' ' :: r3 =>
      let yearD := r3.takeWhile Char.isDigit
      match r3.dropWhile Char.isDigit with
      | ' ' :: r4 =>
        let hourD := r4.takeWhile Char.isDigit
        match r4.dropWhile Char.isDigit with
        | ':' :: r5 =>
          let minD := r5.takeWhile Char.isDigit
          match r5.dropWhile Char.isDigit with
          | [] =>
            if dayD.isEmpty || monD.isEmpty || yearD.isEmpty || hourD.isEmpty || minD.isEmpty then
              none
            else
              mkNaive? (digitsToNat yearD) (digitsToNat monD) (digitsToNat dayD)
                (digitsToNat hourD) (digitsToNat minD)
          | _ => none
        | _ => none
      | _ => none
    | _ => none
  | _ => none

/-! ## Data model of the cleaned records (`step-1-clean.py`) -/

/-- One embedded event marker: the part of an `Event*` cell before the first
hyphen and the raw payload after it. -/
structure PyEvent where
  type : String
  timestamp : String
deriving DecidableEq

/-- One canonical record, as assembled by `clean_sleep_data` and serialized
to the interchange JSON. -/
structure CanonicalRecord where
  id : Option String
  from_time : Timestamp
  to_time : Timestamp
  scheduled_time : Timestamp
  hours : Option ℚ
  rating : Option ℚ
  cycles : Option ℚ
  deep_sleep : Option ℚ
  geo : Option String
  time_series : List (String × ℚ)
  events : List PyEvent
deriving DecidableEq

/-- Errors raised (as Python exceptions) while normalizing one row pair. -/
inductive CleanErr where
  | keyError (name : String)
  | typeError
  | unknownTimeZone (name : String)
  | valueError (s : String)
deriving DecidableEq

/-- One decoded single-row table: column names paired with their cell
values; an absent cell (empty CSV field or short row) is `none`, modelling
`pandas` null. -/
abbrev RowCells := List (String × Option String)

/-- Models the empty-field-to-NaN convention of `pd.read_csv`. -/
def cellAt (vals : List String) (i : Nat) : Option String :=
  match vals.get? i with
  | some v => if v = "" then none else some v
  | none => none

/-- Decode an aligned (header, data) pair of comma-separated lines into the
single-row table used by the normalizer. -/
def mkRow (cols vals : List String) : RowCells :=
  cols.enum.map (fun p => (p.2, cellAt vals p.1))

/-- Models `df[name].iloc[0]`: first column of that name; a missing column
is a `KeyError`. -/
def lookupCol (row : RowCells) (name : String) : Except CleanErr (Option String) :=
  match row.find? (fun p => p.1 == name) with
  | some p => .ok p.2
  | none => .error (.keyError name)

/-- Models `float(df[name].iloc[0]) if pd.notnull(df[name].iloc[0]) else None`
for the four scalar metric columns. -/
def getScalar (row : RowCells) (name : String) : Except CleanErr (Option ℚ) :=
  match lookupCol row name with
  | .error e => .error e
  | .ok none => .ok none
  | .ok (some v) =>
    match pyFloat? v with
    | some q => .ok (some q)
    | none => .error (.valueError v)

/-- Models parsing one timestamp column with `datetime.strptime` in the
fixed format, localizing it to the session's source zone and re-expressing
it in the fixed target zone.  A null cell is a `TypeError` (as raised by
`strptime` on NaN); an unparsable string is a `ValueError`. -/
def getTimestamp (tz target : Tz) (row : RowCells) (name : String) :
    Except CleanErr Timestamp :=
  match lookupCol row name with
  | .error e => .error e
  | .ok none => .error .typeError
  | .ok (some v) =>
    match parseDT v with
    | some n => .ok (astimezone target (localize tz n))
    | none => .error (.valueError v)

/-- Models the time-series extraction loop: every column whose name contains
a colon and whose value is present contributes one numeric entry; a present
non-numeric value is a `ValueError`. -/
def timeSeriesOf : RowCells → Except CleanErr (List (String × ℚ))
  | [] => .ok []
  | (c, val) :: rest =>
    if strContains c ':' then
      match val with
      | some v =>
        match pyFloat? v with
        | some q =>
          match timeSeriesOf rest with
          | .ok tl => .ok ((c, q) :: tl)
          | .error e => .error e
        | none => .error (.valueError v)
      | none => timeSeriesOf rest
    else timeSeriesOf rest

/-- The warning printed for an `Event*` cell without a hyphen. -/
def warnMsg (v : String) : String :=
  "Warning: Could not parse event: " ++ v

/-- Models the event extraction loop: every `Event*` column with a present
value is split on the first hyphen into (type, timestamp payload); a value
with no hyphen emits a warning and is dropped. Returns the events and the
emitted warnings, in column order. -/
def parseEvents : RowCells → List PyEvent × List String
  | [] => ([], [])
  | (c, val) :: rest =>
    let r := parseEvents rest
    if strStartsWith c "Event" then
      match val with
      | some v =>
        if strContains v '-' then (⟨firstSeg v, afterSeg v⟩ :: r.1, r.2)
        else (r.1, warnMsg v :: r.2)
      | none => r
    else r

/-- The fallible field extractions of one row: everything the per-pair body
computes before the event loop (which itself never raises). -/
structure CoreFields where
  id : Option String
  from_time : Timestamp
  to_time : Timestamp
  scheduled_time : Timestamp
  hours : Option ℚ
  rating : Option ℚ
  cycles : Option ℚ
  deep_sleep : Option ℚ
  geo : Option String
  time_series : List (String × ℚ)
deriving DecidableEq

/-- Models the per-pair body of `clean_sleep_data` up to the event loop:
resolve the source zone from the `Tz` column, convert the three
timestamps, extract the scalar metrics and the time series.  The first
raised exception aborts the row (and, upstream, the batch). -/
def normalizeCore (tzdb : String → Option Tz) (target : Tz) (row : RowCells) :
    Except CleanErr CoreFields :=
  match lookupCol row "Tz" with
  | .error e => .error e
  | .ok none => .error .typeError
  | .ok (some tzName) =>
    match tzdb tzName with
    | none => .error (.unknownTimeZone tzName)
    | some tz =>
      match getTimestamp tz target row "From" with
      | .error e => .error e
      | .ok from_time =>
        match getTimestamp tz target row "To" with
        | .error e => .error e
        | .ok to_time =>
          match getTimestamp tz target row "Sched" with
          | .error e => .error e
          | .ok scheduled_time =>
            match lookupCol row "Id" with
            | .error e => .error e
            | .ok idv =>
              match getScalar row "Hours" with
              | .error e => .error e
              | .ok hoursv =>
                match getScalar row "Rating" with
                | .error e => .error e
                | .ok ratingv =>
                  match getScalar row "Cycles" with
                  | .error e => .error e
                  | .ok cyclesv =>
                    match getScalar row "DeepSleep" with
                    | .error e => .error e
                    | .ok dsv =>
                      match lookupCol row "Geo" with
                      | .error e => .error e
                      | .ok geov =>
                        match timeSeriesOf row with
                        | .error e => .error e
                        | .ok tsv =>
                          .ok ⟨idv, from_time, to_time, scheduled_time,
                               hoursv, ratingv, cyclesv, dsv, geov, tsv⟩

/-- Models the whole per-pair body of `clean_sleep_data`: the fallible
field extractions followed by the event loop, assembled into one record
together with the emitted warnings. -/
def normalizeRow (tzdb : String → Option Tz) (target : Tz) (row : RowCells) :
    Except CleanErr (CanonicalRecord × List String) :=
  match normalizeCore tzdb target row with
  | .error e => .error e
  | .ok core =>
    let ev := parseEvents row
    .ok (⟨core.id, core.from_time, core.to_time, core.scheduled_time,
          core.hours, core.rating, core.cycles, core.deep_sleep, core.geo,
          core.time_series, ev.1⟩,
         ev.2)

/-! ## Schema reconciliation (`step-1-clean.py`, line loop) -/

/-- A line is a header iff it begins with `"Id,"`. -/
def isHeaderLine (l : String) : Bool :=
  strStartsWith l "Id,"

/-- A line is a data line iff it is non-blank and does not begin with a
comma. -/
def isDataLine (l : String) : Bool :=
  strTrim l != "" && !(strStartsWith l ",")

/-- The reconciliation loop: `cur` is the mutable `current_header` state.
Each data line is paired with the most recently seen header; with no header
seen yet a data line is dropped. -/
def reconcileAux : Option String → List String → List (String × String)
  | _, [] => []
  | cur, l :: ls =>
    if isHeaderLine l then reconcileAux (some (strTrim l)) ls
    else if isDataLine l then
      match cur with
      | some h => (h, strTrim l) :: reconcileAux cur ls
      | none => reconcileAux cur ls
    else reconcileAux cur ls

/-- Pair every data line of the export with its governing header line. -/
def reconcile (lines : List String) : List (String × String) :=
  reconcileAux none lines

/-- Decode one aligned pair into a single-row table (`pd.read_csv` on the
two joined lines). -/
def rowOfPair (p : String × String) : RowCells :=
  mkRow (strSplit p.1 ',') (strSplit p.2 ',')

/-- Process a list of units left to right; the first exception aborts the
whole run, modelling an uncaught exception escaping a Python `for` loop. -/
def mapE {α β ε : Type} (f : α → Except ε β) : List α → Except ε (List β)
  | [] => .ok []
  | a :: rest =>
    match f a with
    | .error e => .error e
    | .ok b =>
      match mapE f rest with
      | .error e => .error e
      | .ok bs => .ok (b :: bs)

/-- Models `clean_sleep_data` on the raw lines: reconcile, then normalize
each pair in order; the first exception aborts the whole batch.  Returns
the cleaned records together with all emitted warnings. -/
def cleanSleepData (tzdb : String → Option Tz) (target : Tz)
    (lines : List String) :
    Except CleanErr (List CanonicalRecord × List String) :=
  match mapE (fun p => normalizeRow tzdb target (rowOfPair p)) (reconcile lines) with
  | .ok results => .ok (results.map Prod.fst, (results.map Prod.snd).flatten)
  | .error e => .error e

/-! ## Metric derivation (`step-2-analyze.py`, `create_analysis_dataframe`) -/

/-- Errors raised (as Python exceptions) while deriving one analysis row. -/
inductive AnalyzeErr where
  | typeError
  | valueError (s : String)
deriving DecidableEq

/-- One derived analysis row.  Clock quantities are minutes: `date` is the
local day number of the sleep instant, `sleep_time` and `wake_time` are
local minutes of day. -/
structure AnalysisRow where
  date : Int
  sleep_time : Int
  wake_time : Int
  hours : Option ℚ
  deep_sleep_hours : Option ℚ
  rem_sleep_hours : ℚ
  light_sleep_hours : Option ℚ
  interruption_count : Nat
  avg_interruption_mins : ℚ
  day_of_week : String
  is_weekend : Bool
deriving DecidableEq

/-- Python truthiness of the `current_awake` marker (a float or `None`):
`None` and `0.0` are falsy. -/
def isTruthy : Option ℚ → Bool
  | some c => c != 0
  | none => false

/-- One step of the interruption scan, on the state
(interruption list so far, `current_awake` marker). -/
def awakeStep (st : List ℚ × Option ℚ) (e : PyEvent) :
    Except AnalyzeErr (List ℚ × Option ℚ) :=
  if e.type == "AWAKE_START" then
    match pyFloat? (firstSeg e.timestamp) with
    | some x => .ok (st.1, some (x / 1000))
    | none => .error (.valueError (firstSeg e.timestamp))
  else if e.type == "AWAKE_END" && isTruthy st.2 then
    match st.2 with
    | some c =>
      match pyFloat? e.timestamp with
      | some endv => .ok (st.1 ++ [(endv / 1000 - c) / 60], none)
      | none => .error (.valueError e.timestamp)
    | none => .ok st
  else .ok st

/-- The interruption scan from a given state. -/
def awakeScanAux (st : List ℚ × Option ℚ) :
    List PyEvent → Except AnalyzeErr (List ℚ × Option ℚ)
  | [] => .ok st
  | e :: rest =>
    match awakeStep st e with
    | .error err => .error err
    | .ok st' => awakeScanAux st' rest

/-- The interruption scan over the whole event list. -/
def awakeScan (events : List PyEvent) : Except AnalyzeErr (List ℚ × Option ℚ) :=
  awakeScanAux ([], none) events

/-- Detected interruption lengths in minutes, in detection order. -/
def interruptionsOf (events : List PyEvent) : Except AnalyzeErr (List ℚ) :=
  match awakeScan events with
  | .ok st => .ok st.1
  | .error e => .error e

def isRemEvent (e : PyEvent) : Bool :=
  e.type == "REM_START" || e.type == "REM_END"

/-- Models `float(e["timestamp"].split("-")[0])` on one event. -/
def parseSeg (e : PyEvent) : Except AnalyzeErr ℚ :=
  match pyFloat? (firstSeg e.timestamp) with
  | some x => .ok x
  | none => .error (.valueError (firstSeg e.timestamp))

/-- Positional pairwise REM accumulation: events 0 and 1 form a pair, then
2 and 3, and so on; an unpaired trailing event contributes nothing.  Each
pair contributes `(end/1000 − start/1000)/3600` hours. -/
def remPairs : List PyEvent → Except AnalyzeErr ℚ
  | a :: b :: rest =>
    match parseSeg a with
    | .error e => .error e
    | .ok s =>
      match parseSeg b with
      | .error e => .error e
      | .ok en =>
        match remPairs rest with
        | .error e => .error e
        | .ok tl => .ok ((en / 1000 - s / 1000) / 3600 + tl)
  | _ => .ok 0

/-- REM hours of a record: filter to `REM_START`/`REM_END` in source order,
then accumulate pairwise. -/
def remTimeOf (events : List PyEvent) : Except AnalyzeErr ℚ :=
  remPairs (events.filter isRemEvent)

def dayNames : List String :=
  ["Monday", "Tuesday", "Wednesday", "Thursday", "Friday", "Saturday", "Sunday"]

def Timestamp.localMinutes (t : Timestamp) : Int :=
  t.instant + t.offset

/-- Local day number of an aware instant. -/
def Timestamp.localDay (t : Timestamp) : Int :=
  Int.fdiv t.localMinutes 1440

/-- Local minute of day of an aware instant. -/
def Timestamp.localMinuteOfDay (t : Timestamp) : Int :=
  Int.emod t.localMinutes 1440

/-- Python `datetime.weekday()`: Monday is 0; day 0 (1970-01-01) is a
Thursday. -/
def Timestamp.weekday (t : Timestamp) : Nat :=
  (Int.emod (t.localDay + 3) 7).toNat

/-- Python `strftime("%A")` weekday name. -/
def Timestamp.dayName (t : Timestamp) : String :=
  dayNames.getD t.weekday ""

/-- Models the per-record body of `create_analysis_dataframe`: interruption
scan, REM accumulation, stage-hour computation and calendar features.  Any
Python exception aborts the record (and, upstream, the whole derivation). -/
def analyzeRecord (r : CanonicalRecord) : Except AnalyzeErr AnalysisRow :=
  match interruptionsOf r.events with
  | .error e => .error e
  | .ok ints =>
    match remTimeOf r.events with
    | .error e => .error e
    | .ok rem =>
      match r.deep_sleep with
      | none => .error .typeError
      | some ds =>
        if 0 ≤ ds then
          match r.hours with
          | none => .error .typeError
          | some h =>
            .ok ⟨r.from_time.localDay, r.from_time.localMinuteOfDay,
                 r.to_time.localMinuteOfDay, r.hours,
                 some (ds * h), rem, some (h - ds * h - rem),
                 ints.length,
                 (if ints.isEmpty then 0 else ints.sum / (ints.length : ℚ)),
                 r.from_time.dayName, decide (5 ≤ r.from_time.weekday)⟩
        else
          .ok ⟨r.from_time.localDay, r.from_time.localMinuteOfDay,
               r.to_time.localMinuteOfDay, r.hours,
               none, rem, none,
               ints.length,
               (if ints.isEmpty then 0 else ints.sum / (ints.length : ℚ)),
               r.from_time.dayName, decide (5 ≤ r.from_time.weekday)⟩

/-- Models `create_analysis_dataframe`: one analysis row per record, in
input order; the first exception aborts the whole derivation. -/
def createAnalysis (records : List CanonicalRecord) :
    Except AnalyzeErr (List AnalysisRow) :=
  mapE analyzeRecord records

/-- The ten columns read unconditionally from every aligned row pair. -/
def requiredCols : List String :=
  ["Id", "Tz", "From", "To", "Sched", "Hours", "Rating", "Cycles", "DeepSleep", "Geo"]

/-! ## Specification-side definitions

`pairSum` restates the REM accumulation of the spec at the level of already
parsed millisecond values: positional pairs, `(end − start)` milliseconds
converted to hours, unpaired trailing value dropped. -/

def pairSum : List ℚ → ℚ
  | a :: b :: rest => (b - a) / 3600000 + pairSum rest
  | _ => 0

/-! ## Concrete inputs used to exercise the pipeline -/

/-- A sleep instant: local midnight in a fixed −8h zone. -/
def ts0 : Timestamp := ⟨480, -480⟩

/-- A wake instant: local 8:00 in a fixed −8h zone. -/
def ts1 : Timestamp := ⟨960, -480⟩

/-- The event list of the spec's interruption test vector. -/
def c1Events : List PyEvent := [⟨"AWAKE_START", "0"⟩, ⟨"AWAKE_END", "120000"⟩]

/-- A record carrying the spec's interruption test vector. -/
def c1Record : CanonicalRecord :=
  ⟨some "1", ts0, ts1, ts0, some 8, none, none, some (1/4), none, [], c1Events⟩

/-- The row derived from `c1Record`. -/
def c1Row : AnalysisRow :=
  ⟨0, 0, 480, some 8, some 2, 0, some 6, 0, 0, "Thursday", false⟩

/-- One complete REM pair worth one hour. -/
def remEvents1 : List PyEvent := [⟨"REM_START", "0"⟩, ⟨"REM_END", "3600000"⟩]

/-- A record with an absent (null) deep-sleep ratio and computable REM. -/
def c2Record : CanonicalRecord :=
  ⟨some "2", ts0, ts1, ts0, some 8, none, none, none, none, [], remEvents1⟩

/-- The spec's REM test vector with a dangling trailing start. -/
def c4Events : List PyEvent :=
  [⟨"REM_START", "0"⟩, ⟨"REM_END", "1800000"⟩, ⟨"REM_START", "3600000"⟩]

/-- The spec's stage-hours test vector: ratio 1/4, 8 hours, one REM hour. -/
def c5Record : CanonicalRecord :=
  ⟨some "5", ts0, ts1, ts0, some 8, none, none, some (1/4), none, [], remEvents1⟩

/-- The row derived from `c5Record`. -/
def c5Row : AnalysisRow :=
  ⟨0, 0, 480, some 8, some 2, 1, some 5, 0, 0, "Thursday", false⟩

/-- An `AWAKE_END` payload with an embedded hyphen-separated suffix, reached
with an open (truthy) marker. -/
def c9Record : CanonicalRecord :=
  ⟨some "9", ts0, ts1, ts0, some 8, none, none, some (1/4), none, [],
   [⟨"AWAKE_START", "60000"⟩, ⟨"AWAKE_END", "120000-5"⟩]⟩

/-- A two-zone resolution capability standing in for the external zone
database. -/
def demoTzdb : String → Option Tz :=
  fun s => if s = "UTC" then some ⟨0⟩ else if s = "America/Los_Angeles" then some ⟨-480⟩ else none

/-- The fixed target zone of the cleaner. -/
def tzLA : Tz := ⟨-480⟩

/-- A header line carrying all ten required columns. -/
def goodHeader : String := "Id,Tz,From,To,Sched,Hours,Rating,Cycles,DeepSleep,Geo"

/-- A data line whose `From` timestamp does not parse. -/
def badFromData : String := "7,UTC,garbage,15. 3. 2024 7:30,14. 3. 2024 23:00,8,,,1,"

/-- A header line missing the `Hours` column. -/
def shortHeader : String := "Id,Tz,From,To,Sched,Rating,Cycles,DeepSleep,Geo"

/-- A data line matching `shortHeader`. -/
def shortData : String := "7,UTC,14. 3. 2024 23:30,15. 3. 2024 7:30,14. 3. 2024 23:00,,,1,"

/-- The decoded cells of one complete row, before its `Event` column. -/
def c6Pre : RowCells :=
  [("Id", some "1"), ("Tz", some "UTC"), ("From", some "14. 3. 2024 23:30"),
   ("To", some "15. 3. 2024 7:30"), ("Sched", some "14. 3. 2024 23:00"),
   ("Hours", some "8"), ("Rating", none), ("Cycles", none),
   ("DeepSleep", some "1"), ("Geo", none)]

/-! ## Generic lemmas about the abort-on-first-exception loop -/

theorem mapE_ok_mem {α β ε : Type} (f : α → Except ε β) :
    ∀ (l : List α) (ys : List β), mapE f l = .ok ys → ∀ a ∈ l, ∃ b, f a = .ok b := by
  intro l
  induction l with
  | nil => intro ys _ a ha; cases ha
  | cons x rest ih =>
    intro ys h a ha
    unfold mapE at h
    cases hx : f x with
    | error e => rw [hx] at h; cases h
    | ok b =>
      rw [hx] at h
      cases hrest : mapE f rest with
      | error e => rw [hrest] at h; cases h
      | ok bs =>
        cases ha with
        | head => exact ⟨b, hx⟩
        | tail _ hmem => exact ih bs hrest a hmem

theorem mapE_error_of_mem {α β ε : Type} (f : α → Except ε β) (l : List α) (a : α)
    (ha : a ∈ l) (hf : ∀ b, f a ≠ .ok b) : ∃ e, mapE f l = .error e := by
  cases h : mapE f l with
  | error e => exact ⟨e, rfl⟩
  | ok ys =>
    obtain ⟨b, hb⟩ := mapE_ok_mem f l ys h a ha
    exact absurd hb (hf b)

theorem mapE_ok_get {α β ε : Type} (f : α → Except ε β) :
    ∀ (l : List α) (ys : List β), mapE f l = .ok ys →
      ys.length = l.length ∧
        ∀ i (hi : i < l.length) (hi' : i < ys.length),
          f (l.get ⟨i, hi⟩) = .ok (ys.get ⟨i, hi'⟩) := by
  intro l
  induction l with
  | nil =>
    intro ys h
    unfold mapE at h
    cases h
    exact ⟨rfl, fun i hi => absurd hi (Nat.not_lt_zero i)⟩
  | cons x rest ih =>
    intro ys h
    unfold mapE at h
    cases hx : f x with
    | error e => rw [hx] at h; cases h
    | ok b =>
      rw [hx] at h
      cases hrest : mapE f rest with
      | error e => rw [hrest] at h; cases h
      | ok bs =>
        rw [hrest] at h
        cases h
        obtain ⟨hlen, hget⟩ := ih bs hrest
        refine ⟨by simp [hlen], ?_⟩
        intro i hi hi'
        cases i with
        | zero => simpa using hx
        | succ j =>
          have hj : j < rest.length := Nat.lt_of_succ_lt_succ hi
          have hj' : j < bs.length := Nat.lt_of_succ_lt_succ hi'
          simpa using hget j hj hj'

/-! ## Lemmas about Python float parsing -/

theorem dropWhile_head_false {α : Type} (p : α → Bool) :
    ∀ (l : List α) (c : α) (cs : List α), l.dropWhile p = c :: cs → p c = false := by
  intro l
  induction l with
  | nil => intro c cs h; cases h
  | cons x rest ih =>
    intro c cs h
    by_cases hx : p x = true
    · rw [List.dropWhile_cons_of_pos hx] at h
      exact ih c cs h
    · rw [List.dropWhile_cons_of_neg hx] at h
      cases h
      exact Bool.not_eq_true _ |>.mp hx

theorem pyFloatMag_hyphen (cs : List Char) (h : '-' ∈ cs) : pyFloatMag cs = none := by
  have hsplit : '-' ∈ cs.takeWhile Char.isDigit ++ cs.dropWhile Char.isDigit := by
    rw [List.takeWhile_append_dropWhile]; exact h
  have hnd : '-' ∈ cs.dropWhile Char.isDigit := by
    rcases List.mem_append.mp hsplit with htk | hdr
    · have := List.mem_takeWhile_imp htk
      simp at this
    · exact hdr
  cases hdw : cs.dropWhile Char.isDigit with
  | nil => rw [hdw] at hnd; cases hnd
  | cons d dt =>
    rw [hdw] at hnd
    simp only [pyFloatMag, hdw]
    by_cases hdot : d = '.'
    · subst hdot
      have hfr : '-' ∈ dt := by
        cases List.mem_cons.mp hnd with
        | inl h' => cases h'
        | inr h' => exact h'
      have hall : dt.all Char.isDigit = false := by
        cases hx : dt.all Char.isDigit with
        | false => rfl
        | true =>
          have := List.all_eq_true.mp hx '-' hfr
          simp at this
      simp [hall]
    · simp [hdot]

/-- A payload of the form `a ++ "-" ++ b` with non-empty `a` never parses as
a Python float. -/
theorem pyFloat_embedded_hyphen (a b : String) (ha : a ≠ "") :
    pyFloat? (a ++ "-" ++ b) = none := by
  have hdata : (a ++ "-" ++ b).data = a.data ++ '-' :: b.data := by
    cases a
    cases b
    simp [String.append]
  have hane : a.data ≠ [] := by
    intro hnil
    apply ha
    cases a
    simp at hnil
    simp [hnil]
  unfold pyFloat?
  rw [hdata]
  cases has : a.data with
  | nil => exact absurd has hane
  | cons c ct =>
    have hmem : '-' ∈ ct ++ '-' :: b.data :=
      List.mem_append.mpr (Or.inr (List.mem_cons_self _ _))
    have hmem' : '-' ∈ c :: (ct ++ '-' :: b.data) :=
      List.mem_cons.mpr (Or.inr hmem)
    simp only [List.cons_append]
    by_cases hc1 : c = '-'
    · subst hc1
      simp [pyFloatMag_hyphen _ hmem]
    · by_cases hc2 : c = '+'
      · subst hc2
        simp [pyFloatMag_hyphen _ hmem]
      · simp [hc1, hc2, pyFloatMag_hyphen _ hmem']

/-! ## Claim C1 -/

/-- Claim C1: for events `[AWAKE_START@0, AWAKE_END@120000]` the claim
expects interruption list `[2.0]`, count 1, average 2.0.  The code instead
produces an empty interruption list, count 0 and average 0: the
`AWAKE_START` marker `0.0` is falsy under the code's truthiness test, so
the `AWAKE_END` branch never fires.  This theorem evaluates the embedded
code at the claim's input and exhibits the divergence. -/
theorem C1_zero_start_truthiness :
    interruptionsOf c1Events = .ok [] ∧
      (analyzeRecord c1Record).map
        (fun r => (r.interruption_count, r.avg_interruption_mins)) = .ok (0, 0) := by
  have h0 : pyFloat? (firstSeg "0") = some 0 := by decide
  constructor
  · simp [interruptionsOf, awakeScan, c1Events, awakeScanAux, awakeStep, h0, isTruthy]
  · simp [analyzeRecord, c1Record, interruptionsOf, awakeScan, c1Events, awakeScanAux,
      awakeStep, h0, isTruthy, remTimeOf, isRemEvent, remPairs, Except.map,
      show (0 : ℚ) ≤ 1/4 by norm_num]

/-! ## Claim C2 -/

/-- Claim C2: for a record whose deep-sleep ratio is absent (null), the
claim expects deep and light hours to be the explicit no-value marker with
REM hours still computed.  The code instead evaluates `None >= 0`, which
raises `TypeError` and produces no analysis row at all, even though the
record's REM hours were computable (here 1.0). -/
theorem C2_null_ratio_typeerror :
    analyzeRecord c2Record = .error .typeError ∧ remTimeOf c2Record.events = .ok 1 := by
  have h0 : pyFloat? (firstSeg "0") = some 0 := by decide
  have h1 : pyFloat? (firstSeg "3600000") = some 3600000 := by decide
  constructor
  · simp [analyzeRecord, c2Record, interruptionsOf, awakeScan, remEvents1, awakeScanAux,
      awakeStep, isTruthy, remTimeOf, isRemEvent, remPairs, parseSeg, h0, h1]
  · have heq : remTimeOf c2Record.events = remTimeOf remEvents1 := rfl
    rw [heq]
    simp [remTimeOf, remEvents1, isRemEvent, remPairs, parseSeg, h0, h1]
    norm_num

/-! ## Claim C4 -/

theorem twoStepInduction {α : Type} {P : List α → Prop} (h0 : P [])
    (h1 : ∀ a, P [a]) (h2 : ∀ a b rest, P rest → P (a :: b :: rest)) :
    ∀ l, P l
  | [] => h0
  | [a] => h1 a
  | a :: b :: rest => h2 a b rest (twoStepInduction h0 h1 h2 rest)

/-- When every first hyphen-segment of a list of events parses, the
pairwise accumulation equals the positional pair sum of the parsed
millisecond values. -/
theorem remPairs_pairSum (l : List PyEvent) : ∀ (vals : List ℚ),
    l.map (fun e => pyFloat? (firstSeg e.timestamp)) = vals.map some →
    remPairs l = .ok (pairSum vals) := by
  induction l using twoStepInduction with
  | h0 =>
    intro vals h
    have : vals = [] := by
      cases vals with
      | nil => rfl
      | cons v vs => simp at h
    subst this
    rfl
  | h1 a =>
    intro vals h
    cases vals with
    | nil => simp at h
    | cons v vs =>
      cases vs with
      | nil =>
        simp at h
        simp [remPairs, pairSum]
      | cons w ws => simp at h
  | h2 a b rest ih =>
    intro vals h
    cases vals with
    | nil => simp at h
    | cons va vs =>
      cases vs with
      | nil => simp at h
      | cons vb vrest =>
        simp only [List.map_cons, List.cons.injEq] at h
        obtain ⟨ha, hb, hrest⟩ := h
        have htl := ih vrest hrest
        simp only [remPairs, parseSeg, ha, hb, htl, pairSum]
        congr 1
        ring

/-- Claim C4: REM duration filters the record's events to
`REM_START`/`REM_END` in source order, pairs them positionally, sums
`(end − start)` (first hyphen-segments read as milliseconds) converted to
hours, and drops an unpaired trailing event; in particular
`[REM_START@0, REM_END@1800000, REM_START@3600000]` yields 0.5 hours. -/
theorem C4_rem_pairwise :
    (∀ (events : List PyEvent) (vals : List ℚ),
        (events.filter isRemEvent).map (fun e => pyFloat? (firstSeg e.timestamp)) =
          vals.map some →
        remTimeOf events = .ok (pairSum vals)) ∧
      remTimeOf c4Events = .ok (1/2) := by
  constructor
  · intro events vals h
    exact remPairs_pairSum (events.filter isRemEvent) vals h
  · have h0 : pyFloat? (firstSeg "0") = some 0 := by decide
    have h1 : pyFloat? (firstSeg "1800000") = some 1800000 := by decide
    simp [remTimeOf, c4Events, isRemEvent, remPairs, parseSeg, h0, h1]
    norm_num

/-- Witness for C4: the general pairwise theorem applied to the claim's
concrete event list and parsed values. -/
theorem C4_witness :
    (c4Events.filter isRemEvent).map (fun e => pyFloat? (firstSeg e.timestamp)) =
        [(0 : ℚ), 1800000, 3600000].map some ∧
      remTimeOf c4Events = .ok (pairSum [(0 : ℚ), 1800000, 3600000]) := by
  have hmap : (c4Events.filter isRemEvent).map (fun e => pyFloat? (firstSeg e.timestamp)) =
      [(0 : ℚ), 1800000, 3600000].map some := by decide
  exact ⟨hmap, C4_rem_pairwise.1 c4Events [(0 : ℚ), 1800000, 3600000] hmap⟩

/-! ## Claim C5 -/

/-- Claim C5: whenever the deep-sleep ratio is present and non-negative and
total hours are present, the derived row has
`deep_sleep_hours = ratio × hours` and
`light_sleep_hours = hours − deep − rem`; in particular ratio 1/4, 8 hours
and one REM hour give deep 2 and light 5. -/
theorem C5_stage_hours :
    (∀ (r : CanonicalRecord) (ds h : ℚ) (row : AnalysisRow),
        r.deep_sleep = some ds → 0 ≤ ds → r.hours = some h →
        analyzeRecord r = .ok row →
        row.deep_sleep_hours = some (ds * h) ∧
          row.light_sleep_hours = some (h - ds * h - row.rem_sleep_hours)) ∧
      analyzeRecord c5Record = .ok c5Row := by
  constructor
  · intro r ds h row hds hle hh hok
    unfold analyzeRecord at hok
    cases hi : interruptionsOf r.events with
    | error e => rw [hi] at hok; cases hok
    | ok ints =>
      rw [hi] at hok
      cases hr : remTimeOf r.events with
      | error e => rw [hr] at hok; cases hok
      | ok rem =>
        rw [hr] at hok
        rw [hds] at hok
        simp only [if_pos hle, hh] at hok
        cases hok
        simp
  · have h0 : pyFloat? (firstSeg "0") = some 0 := by decide
    have h1 : pyFloat? (firstSeg "3600000") = some 3600000 := by decide
    have hd : ts0.localDay = 0 := by decide
    have hm : ts0.localMinuteOfDay = 0 := by decide
    have hw : ts1.localMinuteOfDay = 480 := by decide
    have hdn : ts0.dayName = "Thursday" := by decide
    have hwk : ts0.weekday = 3 := by decide
    simp [analyzeRecord, c5Record, c5Row, interruptionsOf, awakeScan, remEvents1,
      awakeScanAux, awakeStep, isTruthy, remTimeOf, isRemEvent, remPairs, parseSeg,
      h0, h1, hd, hm, hw, hdn, hwk, show (0 : ℚ) ≤ 1/4 by norm_num]
    norm_num

/-- Witness for C5: the general stage-hours theorem applied to the claim's
test vector. -/
theorem C5_witness :
    c5Record.deep_sleep = some (1/4) ∧ (0 : ℚ) ≤ 1/4 ∧ c5Record.hours = some 8 ∧
      analyzeRecord c5Record = .ok c5Row ∧
      c5Row.deep_sleep_hours = some ((1/4 : ℚ) * 8) ∧
      c5Row.light_sleep_hours = some (8 - (1/4 : ℚ) * 8 - c5Row.rem_sleep_hours) :=
  ⟨rfl, by norm_num, rfl, C5_stage_hours.2,
   (C5_stage_hours.1 c5Record (1/4) 8 c5Row rfl (by norm_num) rfl C5_stage_hours.2).1,
   (C5_stage_hours.1 c5Record (1/4) 8 c5Row rfl (by norm_num) rfl C5_stage_hours.2).2⟩

/-! ## Claim C9 -/

theorem awakeScanAux_append (l₁ : List PyEvent) : ∀ (st : List ℚ × Option ℚ) (l₂ : List PyEvent),
    awakeScanAux st (l₁ ++ l₂) =
      match awakeScanAux st l₁ with
      | .ok st' => awakeScanAux st' l₂
      | .error e => .error e := by
  induction l₁ with
  | nil => intro st l₂; rfl
  | cons e rest ih =>
    intro st l₂
    simp only [List.cons_append, awakeScanAux]
    cases awakeStep st e with
    | error err => rfl
    | ok st' => exact ih st' l₂

/-- Claim C9: the `AWAKE_END` branch parses the whole timestamp payload as
a number (no hyphen split, unlike `AWAKE_START`).  Whenever the scan
reaches an `AWAKE_END` event whose payload embeds a hyphen-separated
suffix while the marker is open (set and truthy), the derivation raises an
unhandled `ValueError` and produces no analysis row. -/
theorem C9_awake_end_whole_payload (r : CanonicalRecord) (pre post : List PyEvent)
    (ev : PyEvent) (ints : List ℚ) (c : ℚ) (a b : String)
    (hev : r.events = pre ++ ev :: post)
    (hpre : awakeScanAux ([], none) pre = .ok (ints, some c)) (hc : c ≠ 0)
    (hty : ev.type = "AWAKE_END") (hts : ev.timestamp = a ++ "-" ++ b) (ha : a ≠ "") :
    analyzeRecord r = .error (.valueError ev.timestamp) := by
  have hpf : pyFloat? ev.timestamp = none := by
    rw [hts]; exact pyFloat_embedded_hyphen a b ha
  have hstep : awakeStep (ints, some c) ev = .error (.valueError ev.timestamp) := by
    unfold awakeStep
    rw [hty]
    simp [isTruthy, hpf, hc]
  have hscan : awakeScan r.events = .error (.valueError ev.timestamp) := by
    unfold awakeScan
    rw [hev, awakeScanAux_append, hpre]
    simp only [awakeScanAux, hstep]
  unfold analyzeRecord interruptionsOf
  rw [hscan]

/-- Witness for C9: a record whose open marker (60 seconds, truthy) meets
an `AWAKE_END` payload `"120000-5"`. -/
theorem C9_witness :
    c9Record.events =
        [⟨"AWAKE_START", "60000"⟩] ++ (⟨"AWAKE_END", "120000-5"⟩ : PyEvent) :: [] ∧
      awakeScanAux ([], none) [⟨"AWAKE_START", "60000"⟩] =
        .ok ([], some ((60000 : ℚ) / 1000)) ∧
      ((60000 : ℚ) / 1000 ≠ 0) ∧
      (⟨"AWAKE_END", "120000-5"⟩ : PyEvent).timestamp = "120000" ++ "-" ++ "5" ∧
      ("120000" : String) ≠ "" ∧
      analyzeRecord c9Record = .error (.valueError (⟨"AWAKE_END", "120000-5"⟩ : PyEvent).timestamp) := by
  have h60 : pyFloat? (firstSeg "60000") = some 60000 := by decide
  have hscan : awakeScanAux ([], none) [(⟨"AWAKE_START", "60000"⟩ : PyEvent)] =
      .ok ([], some ((60000 : ℚ) / 1000)) := by
    simp [awakeScanAux, awakeStep, h60]
  have hne : ((60000 : ℚ) / 1000 ≠ 0) := by norm_num
  exact ⟨rfl, hscan, hne, rfl, by decide,
    C9_awake_end_whole_payload c9Record [⟨"AWAKE_START", "60000"⟩] []
      ⟨"AWAKE_END", "120000-5"⟩ [] ((60000 : ℚ) / 1000) "120000" "5"
      rfl hscan hne rfl rfl (by decide)⟩

/-! ## Claim C8 -/

/-- Counterexample to C8 as stated: a one-record sequence on which the
engine produces no analysis row at all (the null deep-sleep ratio raises
`TypeError`), so the map is not one row per record. -/
theorem C8_counterexample : createAnalysis [c2Record] = .error .typeError := by
  have h0 : pyFloat? (firstSeg "0") = some 0 := by decide
  have h1 : pyFloat? (firstSeg "3600000") = some 3600000 := by decide
  have hrec : analyzeRecord c2Record = .error .typeError := by
    simp [analyzeRecord, c2Record, interruptionsOf, awakeScan, remEvents1, awakeScanAux,
      awakeStep, isTruthy, remTimeOf, isRemEvent, remPairs, parseSeg, h0, h1]
  simp [createAnalysis, mapE, hrec]

/-- Claim C8 as amended: the empty sequence maps to an empty output without
error, and whenever the engine returns successfully it returns exactly one
analysis row per input record, in input order (per-record derivation can
instead abort the whole run with an exception, as the counterexample
shows). -/
theorem C8_amended :
    createAnalysis [] = .ok [] ∧
      ∀ (records : List CanonicalRecord) (rows : List AnalysisRow),
        createAnalysis records = .ok rows →
        rows.length = records.length ∧
          ∀ i (hi : i < records.length) (hi' : i < rows.length),
            analyzeRecord (records.get ⟨i, hi⟩) = .ok (rows.get ⟨i, hi'⟩) :=
  ⟨rfl, fun records rows h => mapE_ok_get analyzeRecord records rows h⟩

/-- Witness for C8: the order-preserving mapping theorem applied to a
singleton input that derives successfully. -/
theorem C8_witness :
    createAnalysis [c1Record] = .ok [c1Row] ∧
      [c1Row].length = [c1Record].length ∧
      analyzeRecord ([c1Record].get ⟨0, by decide⟩) = .ok ([c1Row].get ⟨0, by decide⟩) := by
  have h0 : pyFloat? (firstSeg "0") = some 0 := by decide
  have hd : ts0.localDay = 0 := by decide
  have hm : ts0.localMinuteOfDay = 0 := by decide
  have hw : ts1.localMinuteOfDay = 480 := by decide
  have hdn : ts0.dayName = "Thursday" := by decide
  have hwk : ts0.weekday = 3 := by decide
  have hrec : analyzeRecord c1Record = .ok c1Row := by
    simp [analyzeRecord, c1Record, c1Row, interruptionsOf, awakeScan, c1Events, awakeScanAux,
      awakeStep, h0, isTruthy, remTimeOf, isRemEvent, remPairs, hd, hm, hw, hdn, hwk,
      show (0 : ℚ) ≤ 1/4 by norm_num]
    norm_num
  have hca : createAnalysis [c1Record] = .ok [c1Row] := by
    simp [createAnalysis, mapE, hrec]
  exact ⟨hca, (C8_amended.2 [c1Record] [c1Row] hca).1,
    (C8_amended.2 [c1Record] [c1Row] hca).2 0 (by decide) (by decide)⟩

/-! ## Claim C7 -/

theorem reconcileAux_no_header (pre : List String) :
    ∀ (rest : List String), (∀ l ∈ pre, isHeaderLine l = false) →
      reconcileAux none (pre ++ rest) = reconcileAux none rest := by
  induction pre with
  | nil => intro rest _; rfl
  | cons x xs ih =>
    intro rest h
    have hx : isHeaderLine x = false := h x (List.mem_cons_self _ _)
    have hxs : ∀ l ∈ xs, isHeaderLine l = false := fun l hl => h l (List.mem_cons_of_mem _ hl)
    by_cases hdx : isDataLine x = true
    · simp [reconcileAux, hx, hdx, ih rest hxs]
    · simp only [Bool.not_eq_true] at hdx
      simp [reconcileAux, hx, hdx, ih rest hxs]

theorem reconcileAux_tail (ls : List String) : ∀ (ht : String),
    (∀ l ∈ ls, isHeaderLine l = false) →
    reconcileAux (some ht) ls = (ls.filter isDataLine).map (fun d => (ht, strTrim d)) := by
  induction ls with
  | nil => intro ht _; rfl
  | cons x xs ih =>
    intro ht h
    have hx : isHeaderLine x = false := h x (List.mem_cons_self _ _)
    have hxs : ∀ l ∈ xs, isHeaderLine l = false := fun l hl => h l (List.mem_cons_of_mem _ hl)
    by_cases hdx : isDataLine x = true
    · simp [reconcileAux, hx, hdx, List.filter_cons, ih ht hxs]
    · simp only [Bool.not_eq_true] at hdx
      simp [reconcileAux, hx, hdx, List.filter_cons, ih ht hxs]

theorem reconcileAux_lastHeader (ls₁ : List String) :
    ∀ (o : Option String) (h : String) (ls₂ : List String),
      isHeaderLine h = true → (∀ l ∈ ls₂, isHeaderLine l = false) →
      reconcileAux o (ls₁ ++ h :: ls₂) =
        reconcileAux o (ls₁ ++ [h]) ++
          (ls₂.filter isDataLine).map (fun d => (strTrim h, strTrim d)) := by
  induction ls₁ with
  | nil =>
    intro o h ls₂ hh hno
    simp only [List.nil_append, reconcileAux, hh, if_true]
    rw [reconcileAux_tail ls₂ (strTrim h) hno]
  | cons x xs ih =>
    intro o h ls₂ hh hno
    by_cases hx : isHeaderLine x = true
    · simp [reconcileAux, hx, ih (some (strTrim x)) h ls₂ hh hno]
    · simp only [Bool.not_eq_true] at hx
      by_cases hdx : isDataLine x = true
      · cases o with
        | none => simp [reconcileAux, hx, hdx, ih none h ls₂ hh hno]
        | some cur => simp [reconcileAux, hx, hdx, ih (some cur) h ls₂ hh hno]
      · simp only [Bool.not_eq_true] at hdx
        simp [reconcileAux, hx, hdx, ih o h ls₂ hh hno]

/-- Claim C7: every data line pairs with the most recently seen header
line; data lines before the first header are silently dropped (no record,
no error) and pairing resumes from the first header onward.  The first
conjunct states the silent drop; the second states that after the last
header of the input, every data line pairs with exactly that header. -/
theorem C7_reconciler_pairing :
    (∀ (pre rest : List String), (∀ l ∈ pre, isHeaderLine l = false) →
        reconcile (pre ++ rest) = reconcile rest) ∧
      ∀ (ls₁ : List String) (h : String) (ls₂ : List String),
        isHeaderLine h = true → (∀ l ∈ ls₂, isHeaderLine l = false) →
        reconcile (ls₁ ++ h :: ls₂) =
          reconcile (ls₁ ++ [h]) ++
            (ls₂.filter isDataLine).map (fun d => (strTrim h, strTrim d)) :=
  ⟨fun pre rest h => reconcileAux_no_header pre rest h,
   fun ls₁ h ls₂ hh hno => reconcileAux_lastHeader ls₁ none h ls₂ hh hno⟩

/-- Witness for C7: a header-less leading data line is dropped and the
single data line after the header pairs with it. -/
theorem C7_witness :
    (∀ l ∈ ["x,leading"], isHeaderLine l = false) ∧
      reconcile (["x,leading"] ++ ["Id,A", "v,1"]) = reconcile ["Id,A", "v,1"] ∧
      isHeaderLine "Id,A" = true ∧ (∀ l ∈ ["v,1"], isHeaderLine l = false) ∧
      reconcile ([] ++ "Id,A" :: ["v,1"]) =
        reconcile ([] ++ ["Id,A"]) ++
          (["v,1"].filter isDataLine).map (fun d => (strTrim "Id,A", strTrim d)) :=
  ⟨by decide, C7_reconciler_pairing.1 ["x,leading"] ["Id,A", "v,1"] (by decide),
   by decide, by decide,
   C7_reconciler_pairing.2 [] "Id,A" ["v,1"] (by decide) (by decide)⟩

/-! ## Characterization of successful row normalization -/

theorem getTimestamp_ok_spec (tz target : Tz) (row : RowCells) (name : String)
    (t : Timestamp) (h : getTimestamp tz target row name = .ok t) :
    ∃ v n, lookupCol row name = .ok (some v) ∧ parseDT v = some n ∧
      t = astimezone target (localize tz n) := by
  unfold getTimestamp at h
  cases hl : lookupCol row name with
  | error e => simp only [hl] at h; cases h
  | ok cell =>
    simp only [hl] at h
    cases cell with
    | none => cases h
    | some v =>
      cases hp : parseDT v with
      | none => simp only [hp] at h; cases h
      | some n =>
        simp only [hp] at h
        cases h
        exact ⟨v, n, rfl, hp, rfl⟩

theorem getScalar_ok_lookup (row : RowCells) (name : String) (q : Option ℚ)
    (h : getScalar row name = .ok q) : ∃ v, lookupCol row name = .ok v := by
  unfold getScalar at h
  cases hl : lookupCol row name with
  | error e => simp only [hl] at h; cases h
  | ok cell => exact ⟨cell, rfl⟩

/-- Successful core extraction resolves the source zone from the `Tz`
column, parses all three timestamp columns in the fixed format and
re-expresses them (source-zone localized) in the target zone, and has read
each of the ten required columns without a `KeyError`. -/
theorem normalizeCore_ok_spec (tzdb : String → Option Tz) (target : Tz) (row : RowCells)
    (core : CoreFields)
    (h : normalizeCore tzdb target row = .ok core) :
    ∃ tzName srcTz, lookupCol row "Tz" = .ok (some tzName) ∧ tzdb tzName = some srcTz ∧
      (∃ f nf, lookupCol row "From" = .ok (some f) ∧ parseDT f = some nf ∧
        core.from_time = astimezone target (localize srcTz nf)) ∧
      (∃ t nt, lookupCol row "To" = .ok (some t) ∧ parseDT t = some nt ∧
        core.to_time = astimezone target (localize srcTz nt)) ∧
      (∃ s ns, lookupCol row "Sched" = .ok (some s) ∧ parseDT s = some ns ∧
        core.scheduled_time = astimezone target (localize srcTz ns)) ∧
      (∀ name ∈ requiredCols, ∃ v, lookupCol row name = .ok v) := by
  unfold normalizeCore at h
  cases hTz : lookupCol row "Tz" with
  | error e => simp only [hTz] at h; cases h
  | ok tzCell =>
    simp only [hTz] at h
    cases tzCell with
    | none => cases h
    | some tzName =>
      cases hdb : tzdb tzName with
      | none => simp only [hdb] at h; cases h
      | some srcTz =>
        simp only [hdb] at h
        cases hF : getTimestamp srcTz target row "From" with
        | error e => simp only [hF] at h; cases h
        | ok ft =>
          simp only [hF] at h
          cases hT : getTimestamp srcTz target row "To" with
          | error e => simp only [hT] at h; cases h
          | ok tt =>
            simp only [hT] at h
            cases hS : getTimestamp srcTz target row "Sched" with
            | error e => simp only [hS] at h; cases h
            | ok st =>
              simp only [hS] at h
              cases hId : lookupCol row "Id" with
              | error e => simp only [hId] at h; cases h
              | ok idv =>
                simp only [hId] at h
                cases hH : getScalar row "Hours" with
                | error e => simp only [hH] at h; cases h
                | ok hoursv =>
                  simp only [hH] at h
                  cases hR : getScalar row "Rating" with
                  | error e => simp only [hR] at h; cases h
                  | ok ratingv =>
                    simp only [hR] at h
                    cases hC : getScalar row "Cycles" with
                    | error e => simp only [hC] at h; cases h
                    | ok cyclesv =>
                      simp only [hC] at h
                      cases hD : getScalar row "DeepSleep" with
                      | error e => simp only [hD] at h; cases h
                      | ok dsv =>
                        simp only [hD] at h
                        cases hG : lookupCol row "Geo" with
                        | error e => simp only [hG] at h; cases h
                        | ok geov =>
                          simp only [hG] at h
                          cases hTs : timeSeriesOf row with
                          | error e => simp only [hTs] at h; cases h
                          | ok tsv =>
                            simp only [hTs] at h
                            cases h
                            obtain ⟨f, nf, hf1, hf2, hf3⟩ :=
                              getTimestamp_ok_spec srcTz target row "From" ft hF
                            obtain ⟨t, nt, ht1, ht2, ht3⟩ :=
                              getTimestamp_ok_spec srcTz target row "To" tt hT
                            obtain ⟨s, ns, hs1, hs2, hs3⟩ :=
                              getTimestamp_ok_spec srcTz target row "Sched" st hS
                            refine ⟨tzName, srcTz, rfl, hdb,
                              ⟨f, nf, hf1, hf2, hf3⟩, ⟨t, nt, ht1, ht2, ht3⟩,
                              ⟨s, ns, hs1, hs2, hs3⟩, ?_⟩
                            intro name hname
                            simp only [requiredCols] at hname
                            fin_cases hname
                            · exact ⟨idv, hId⟩
                            · exact ⟨some tzName, hTz⟩
                            · exact ⟨some f, hf1⟩
                            · exact ⟨some t, ht1⟩
                            · exact ⟨some s, hs1⟩
                            · exact getScalar_ok_lookup row "Hours" hoursv hH
                            · exact getScalar_ok_lookup row "Rating" ratingv hR
                            · exact getScalar_ok_lookup row "Cycles" cyclesv hC
                            · exact getScalar_ok_lookup row "DeepSleep" dsv hD
                            · exact ⟨geov, hG⟩

/-- Successful normalization of a whole row inherits the characterization
of the core extraction. -/
theorem normalizeRow_ok_spec (tzdb : String → Option Tz) (target : Tz) (row : RowCells)
    (rec : CanonicalRecord) (ws : List String)
    (h : normalizeRow tzdb target row = .ok (rec, ws)) :
    ∃ tzName srcTz, lookupCol row "Tz" = .ok (some tzName) ∧ tzdb tzName = some srcTz ∧
      (∃ f nf, lookupCol row "From" = .ok (some f) ∧ parseDT f = some nf ∧
        rec.from_time = astimezone target (localize srcTz nf)) ∧
      (∃ t nt, lookupCol row "To" = .ok (some t) ∧ parseDT t = some nt ∧
        rec.to_time = astimezone target (localize srcTz nt)) ∧
      (∃ s ns, lookupCol row "Sched" = .ok (some s) ∧ parseDT s = some ns ∧
        rec.scheduled_time = astimezone target (localize srcTz ns)) ∧
      (∀ name ∈ requiredCols, ∃ v, lookupCol row name = .ok v) := by
  unfold normalizeRow at h
  cases hc : normalizeCore tzdb target row with
  | error e => simp only [hc] at h; cases h
  | ok core =>
    simp only [hc] at h
    cases h
    obtain ⟨tzName, srcTz, h1, h2, hF, hT, hS, hall⟩ :=
      normalizeCore_ok_spec tzdb target row core hc
    exact ⟨tzName, srcTz, h1, h2, hF, hT, hS, hall⟩

/-! ## Claim C3 -/

/-- Claim C3: every successfully normalized record has its three timestamp
fields parsed in the fixed format, localized to the source zone resolved
from the `Tz` column and re-expressed in the fixed target zone; an
unresolvable zone name or an unparsable timestamp string makes the row
raise, and any raising row aborts the whole batch (the error propagates
out of the per-row loop; no record is silently skipped). -/
theorem C3_timezone_and_abort :
    (∀ (tzdb : String → Option Tz) (target : Tz) (row : RowCells)
        (rec : CanonicalRecord) (ws : List String),
        normalizeRow tzdb target row = .ok (rec, ws) →
        ∃ tzName srcTz, lookupCol row "Tz" = .ok (some tzName) ∧
          tzdb tzName = some srcTz ∧
          (∃ f nf, lookupCol row "From" = .ok (some f) ∧ parseDT f = some nf ∧
            rec.from_time = astimezone target (localize srcTz nf)) ∧
          (∃ t nt, lookupCol row "To" = .ok (some t) ∧ parseDT t = some nt ∧
            rec.to_time = astimezone target (localize srcTz nt)) ∧
          (∃ s ns, lookupCol row "Sched" = .ok (some s) ∧ parseDT s = some ns ∧
            rec.scheduled_time = astimezone target (localize srcTz ns))) ∧
    (∀ (tzdb : String → Option Tz) (target : Tz) (row : RowCells) (v : String),
        lookupCol row "Tz" = .ok (some v) → tzdb v = none →
        ∃ e, normalizeRow tzdb target row = .error e) ∧
    (∀ (tzdb : String → Option Tz) (target : Tz) (row : RowCells) (name f : String),
        name ∈ (["From", "To", "Sched"] : List String) →
        lookupCol row name = .ok (some f) → parseDT f = none →
        ∃ e, normalizeRow tzdb target row = .error e) ∧
    ∀ (tzdb : String → Option Tz) (target : Tz) (lines : List String)
      (p : String × String),
      p ∈ reconcile lines →
      (∀ x, normalizeRow tzdb target (rowOfPair p) ≠ .ok x) →
      ∃ e, cleanSleepData tzdb target lines = .error e := by
  refine ⟨?_, ?_, ?_, ?_⟩
  · intro tzdb target row rec ws h
    obtain ⟨tzName, srcTz, h1, h2, h3, h4, h5, _⟩ :=
      normalizeRow_ok_spec tzdb target row rec ws h
    exact ⟨tzName, srcTz, h1, h2, h3, h4, h5⟩
  · intro tzdb target row v hl hdb
    cases hnr : normalizeRow tzdb target row with
    | error e => exact ⟨e, rfl⟩
    | ok x =>
      obtain ⟨rec, ws⟩ := x
      obtain ⟨tzName, srcTz, h1, h2, _⟩ := normalizeRow_ok_spec tzdb target row rec ws hnr
      rw [hl] at h1
      cases h1
      rw [hdb] at h2
      cases h2
  · intro tzdb target row name f hname hl hpd
    cases hnr : normalizeRow tzdb target row with
    | error e => exact ⟨e, rfl⟩
    | ok x =>
      obtain ⟨rec, ws⟩ := x
      obtain ⟨tzName, srcTz, _, _, ⟨f', nf, hf1, hf2, _⟩, ⟨t', nt, ht1, ht2, _⟩,
        ⟨s', ns, hs1, hs2, _⟩, _⟩ := normalizeRow_ok_spec tzdb target row rec ws hnr
      fin_cases hname
      · rw [hl] at hf1; cases hf1; rw [hpd] at hf2; cases hf2
      · rw [hl] at ht1; cases ht1; rw [hpd] at ht2; cases ht2
      · rw [hl] at hs1; cases hs1; rw [hpd] at hs2; cases hs2
  · intro tzdb target lines p hp hnotok
    obtain ⟨e, he⟩ :=
      mapE_error_of_mem (fun q => normalizeRow tzdb target (rowOfPair q))
        (reconcile lines) p hp hnotok
    refine ⟨e, ?_⟩
    unfold cleanSleepData
    rw [he]

/-- Witness for C3: a batch whose single data row has an unparsable `From`
timestamp; the row raises and the whole batch aborts with an error. -/
theorem C3_witness :
    ((goodHeader, badFromData) ∈ reconcile [goodHeader, badFromData]) ∧
      lookupCol (rowOfPair (goodHeader, badFromData)) "From" = .ok (some "garbage") ∧
      parseDT "garbage" = none ∧
      (∃ e, normalizeRow demoTzdb tzLA (rowOfPair (goodHeader, badFromData)) = .error e) ∧
      ∃ e, cleanSleepData demoTzdb tzLA [goodHeader, badFromData] = .error e := by
  have hmem : (goodHeader, badFromData) ∈ reconcile [goodHeader, badFromData] := by decide
  have hlk : lookupCol (rowOfPair (goodHeader, badFromData)) "From" = .ok (some "garbage") := by
    decide
  have hpd : parseDT "garbage" = none := by decide
  obtain ⟨e, he⟩ := C3_timezone_and_abort.2.2.1 demoTzdb tzLA
    (rowOfPair (goodHeader, badFromData)) "From" "garbage" (by decide) hlk hpd
  refine ⟨hmem, hlk, hpd, ⟨e, he⟩, ?_⟩
  exact C3_timezone_and_abort.2.2.2 demoTzdb tzLA [goodHeader, badFromData]
    (goodHeader, badFromData) hmem (fun x hx => by rw [hx] at he; cases he)

/-! ## Claim C10 -/

theorem lookupCol_ok_find (row : RowCells) (name : String) (v : Option String)
    (h : lookupCol row name = .ok v) :
    ∃ p, row.find? (fun q => q.1 == name) = some p := by
  unfold lookupCol at h
  cases hf : row.find? (fun q => q.1 == name) with
  | none => simp only [hf] at h; cases h
  | some p => exact ⟨p, rfl⟩

/-- Claim C10: normalization unconditionally reads the ten required columns
from every aligned row pair — a successful normalization implies every one
of them is present — and a reconciled pair whose header lacks any of them
makes the whole batch abort with an error rather than skipping the record
or producing a record with a no-value field. -/
theorem C10_required_columns :
    (∀ (tzdb : String → Option Tz) (target : Tz) (row : RowCells)
        (x : CanonicalRecord × List String),
        normalizeRow tzdb target row = .ok x →
        ∀ name ∈ requiredCols, ∃ p, row.find? (fun q => q.1 == name) = some p) ∧
      ∀ (tzdb : String → Option Tz) (target : Tz) (lines : List String)
        (pr : String × String) (name : String),
        pr ∈ reconcile lines → name ∈ requiredCols →
        (rowOfPair pr).find? (fun q => q.1 == name) = none →
        ∃ e, cleanSleepData tzdb target lines = .error e := by
  constructor
  · intro tzdb target row x h name hname
    obtain ⟨rec, ws⟩ := x
    obtain ⟨_, _, _, _, _, _, _, hall⟩ := normalizeRow_ok_spec tzdb target row rec ws h
    obtain ⟨v, hv⟩ := hall name hname
    exact lookupCol_ok_find row name v hv
  · intro tzdb target lines pr name hpr hname hfind
    have hnotok : ∀ x, normalizeRow tzdb target (rowOfPair pr) ≠ .ok x := by
      intro x hx
      obtain ⟨rec, ws⟩ := x
      obtain ⟨_, _, _, _, _, _, _, hall⟩ :=
        normalizeRow_ok_spec tzdb target (rowOfPair pr) rec ws hx
      obtain ⟨v, hv⟩ := hall name hname
      obtain ⟨p, hp⟩ := lookupCol_ok_find (rowOfPair pr) name v hv
      rw [hfind] at hp
      cases hp
    obtain ⟨e, he⟩ :=
      mapE_error_of_mem (fun q => normalizeRow tzdb target (rowOfPair q))
        (reconcile lines) pr hpr hnotok
    refine ⟨e, ?_⟩
    unfold cleanSleepData
    rw [he]

/-- Witness for C10: a header revision missing the `Hours` column aborts
the whole batch. -/
theorem C10_witness :
    ((shortHeader, shortData) ∈ reconcile [shortHeader, shortData]) ∧
      ("Hours" ∈ requiredCols) ∧
      (rowOfPair (shortHeader, shortData)).find? (fun q => q.1 == "Hours") = none ∧
      ∃ e, cleanSleepData demoTzdb tzLA [shortHeader, shortData] = .error e := by
  refine ⟨by decide, by decide, by decide, ?_⟩
  exact C10_required_columns.2 demoTzdb tzLA [shortHeader, shortData]
    (shortHeader, shortData) "Hours" (by decide) (by decide) (by decide)

/-! ## Claim C6 -/

theorem startsWith_event_ne (c : String) (h : strStartsWith c "Event" = true) :
    ∀ name ∈ requiredCols, (c == name) = false := by
  have k : ∀ s : String, strStartsWith s "Event" = false → (c == s) = false := by
    intro s hs
    by_cases hceq : c = s
    · subst hceq
      rw [h] at hs
      cases hs
    · exact beq_eq_false_iff_ne.mpr hceq
  intro name hname
  simp only [requiredCols] at hname
  fin_cases hname
  · exact k "Id" (by decide)
  · exact k "Tz" (by decide)
  · exact k "From" (by decide)
  · exact k "To" (by decide)
  · exact k "Sched" (by decide)
  · exact k "Hours" (by decide)
  · exact k "Rating" (by decide)
  · exact k "Cycles" (by decide)
  · exact k "DeepSleep" (by decide)
  · exact k "Geo" (by decide)

theorem find?_middle (pre : RowCells) (post : RowCells) (c : String)
    (x x' : Option String) (name : String) (hne : (c == name) = false) :
    (pre ++ (c, x) :: post).find? (fun q => q.1 == name) =
      (pre ++ (c, x') :: post).find? (fun q => q.1 == name) := by
  induction pre with
  | nil => simp [List.find?_cons, hne]
  | cons y ys ih =>
    simp only [List.cons_append, List.find?_cons]
    cases hp : (y.1 == name) with
    | true => rfl
    | false => exact ih

theorem lookupCol_middle (pre post : RowCells) (c : String) (x x' : Option String)
    (name : String) (hne : (c == name) = false) :
    lookupCol (pre ++ (c, x) :: post) name = lookupCol (pre ++ (c, x') :: post) name := by
  unfold lookupCol
  rw [find?_middle pre post c x x' name hne]

theorem getTimestamp_congr (tz target : Tz) (r₁ r₂ : RowCells) (name : String)
    (h : lookupCol r₁ name = lookupCol r₂ name) :
    getTimestamp tz target r₁ name = getTimestamp tz target r₂ name := by
  unfold getTimestamp
  rw [h]

theorem getScalar_congr (r₁ r₂ : RowCells) (name : String)
    (h : lookupCol r₁ name = lookupCol r₂ name) :
    getScalar r₁ name = getScalar r₂ name := by
  unfold getScalar
  rw [h]

theorem timeSeriesOf_middle (pre : RowCells) (post : RowCells) (c : String)
    (x x' : Option String) (hc : strContains c ':' = false) :
    timeSeriesOf (pre ++ (c, x) :: post) = timeSeriesOf (pre ++ (c, x') :: post) := by
  induction pre with
  | nil => simp [timeSeriesOf, hc]
  | cons y ys ih =>
    obtain ⟨yc, yv⟩ := y
    by_cases hyc : strContains yc ':' = true
    · cases yv with
      | none => simp [timeSeriesOf, hyc, ih]
      | some v =>
        cases hpf : pyFloat? v with
        | none => simp [timeSeriesOf, hyc, hpf]
        | some q => simp [timeSeriesOf, hyc, hpf, ih]
    · simp only [Bool.not_eq_true] at hyc
      simp [timeSeriesOf, hyc, ih]

theorem parseEvents_append (l₁ l₂ : RowCells) :
    parseEvents (l₁ ++ l₂) =
      ((parseEvents l₁).1 ++ (parseEvents l₂).1, (parseEvents l₁).2 ++ (parseEvents l₂).2) := by
  induction l₁ with
  | nil => simp [parseEvents]
  | cons y ys ih =>
    obtain ⟨yc, yv⟩ := y
    cases yv with
    | none =>
      by_cases hs : strStartsWith yc "Event" = true
      · simp [parseEvents, hs, ih]
      · simp only [Bool.not_eq_true] at hs
        simp [parseEvents, hs, ih]
    | some v =>
      by_cases hs : strStartsWith yc "Event" = true
      · by_cases hcv : strContains v '-' = true
        · simp [parseEvents, hs, hcv, ih]
        · simp only [Bool.not_eq_true] at hcv
          simp [parseEvents, hs, hcv, ih]
      · simp only [Bool.not_eq_true] at hs
        simp [parseEvents, hs, ih]

theorem normalizeCore_congr (tzdb : String → Option Tz) (target : Tz) (r₁ r₂ : RowCells)
    (hlk : ∀ name ∈ requiredCols, lookupCol r₁ name = lookupCol r₂ name)
    (hts : timeSeriesOf r₁ = timeSeriesOf r₂) :
    normalizeCore tzdb target r₁ = normalizeCore tzdb target r₂ := by
  have eF : ∀ tz, getTimestamp tz target r₁ "From" = getTimestamp tz target r₂ "From" :=
    fun tz => getTimestamp_congr tz target r₁ r₂ "From" (hlk "From" (by decide))
  have eT : ∀ tz, getTimestamp tz target r₁ "To" = getTimestamp tz target r₂ "To" :=
    fun tz => getTimestamp_congr tz target r₁ r₂ "To" (hlk "To" (by decide))
  have eS : ∀ tz, getTimestamp tz target r₁ "Sched" = getTimestamp tz target r₂ "Sched" :=
    fun tz => getTimestamp_congr tz target r₁ r₂ "Sched" (hlk "Sched" (by decide))
  have eH : getScalar r₁ "Hours" = getScalar r₂ "Hours" :=
    getScalar_congr r₁ r₂ "Hours" (hlk "Hours" (by decide))
  have eR : getScalar r₁ "Rating" = getScalar r₂ "Rating" :=
    getScalar_congr r₁ r₂ "Rating" (hlk "Rating" (by decide))
  have eC : getScalar r₁ "Cycles" = getScalar r₂ "Cycles" :=
    getScalar_congr r₁ r₂ "Cycles" (hlk "Cycles" (by decide))
  have eD : getScalar r₁ "DeepSleep" = getScalar r₂ "DeepSleep" :=
    getScalar_congr r₁ r₂ "DeepSleep" (hlk "DeepSleep" (by decide))
  unfold normalizeCore
  simp only [hlk "Tz" (by decide), hlk "Id" (by decide), hlk "Geo" (by decide),
    eF, eT, eS, eH, eR, eC, eD, hts]

theorem normalizeRow_congr (tzdb : String → Option Tz) (target : Tz) (r₁ r₂ : RowCells)
    (hlk : ∀ name ∈ requiredCols, lookupCol r₁ name = lookupCol r₂ name)
    (hts : timeSeriesOf r₁ = timeSeriesOf r₂)
    (hev : (parseEvents r₁).1 = (parseEvents r₂).1) :
    (normalizeRow tzdb target r₁).map Prod.fst =
      (normalizeRow tzdb target r₂).map Prod.fst := by
  unfold normalizeRow
  rw [normalizeCore_congr tzdb target r₁ r₂ hlk hts]
  cases normalizeCore tzdb target r₂ with
  | error e => rfl
  | ok core => simp [Except.map, hev]

/-- Claim C6: an `Event*` cell whose present value contains no hyphen is a
recoverable failure — a warning is emitted, that single event is dropped,
and the produced record equals the record of the same row with that cell
absent (so timestamps, scalars, geo, time series and the other events are
unaffected); cells with a hyphen are split on the first hyphen upstream in
`parseEvents`. -/
theorem C6_bad_event_recoverable (tzdb : String → Option Tz) (target : Tz)
    (pre post : RowCells) (c v : String)
    (hc : strStartsWith c "Event" = true) (hcc : strContains c ':' = false)
    (hv : strContains v '-' = false) :
    ((normalizeRow tzdb target (pre ++ (c, some v) :: post)).map Prod.fst =
        (normalizeRow tzdb target (pre ++ (c, none) :: post)).map Prod.fst) ∧
      (parseEvents (pre ++ (c, some v) :: post)).1 =
        (parseEvents (pre ++ (c, none) :: post)).1 ∧
      (parseEvents (pre ++ (c, some v) :: post)).2 =
        (parseEvents pre).2 ++ warnMsg v :: (parseEvents post).2 ∧
      (parseEvents (pre ++ (c, none) :: post)).2 =
        (parseEvents pre).2 ++ (parseEvents post).2 := by
  have h1 : parseEvents ((c, some v) :: post) =
      ((parseEvents post).1, warnMsg v :: (parseEvents post).2) := by
    simp [parseEvents, hc, hv]
  have h2 : parseEvents ((c, none) :: post) = parseEvents post := by
    simp [parseEvents, hc]
  have ha1 := parseEvents_append pre ((c, some v) :: post)
  have ha2 := parseEvents_append pre ((c, none) :: post)
  rw [h1] at ha1
  rw [h2] at ha2
  have hev : (parseEvents (pre ++ (c, some v) :: post)).1 =
      (parseEvents (pre ++ (c, none) :: post)).1 := by
    rw [ha1, ha2]
  refine ⟨?_, hev, ?_, ?_⟩
  · exact normalizeRow_congr tzdb target _ _
      (fun name hname => lookupCol_middle pre post c (some v) none name
        (startsWith_event_ne c hc name hname))
      (timeSeriesOf_middle pre post c (some v) none hcc) hev
  · rw [ha1]
  · rw [ha2]

/-- Witness for C6: a complete row with an `Event` cell `"BADVALUE"`. -/
theorem C6_witness :
    strStartsWith "Event" "Event" = true ∧ strContains "Event" ':' = false ∧
      strContains "BADVALUE" '-' = false ∧
      (((normalizeRow demoTzdb tzLA (c6Pre ++ ("Event", some "BADVALUE") :: [])).map Prod.fst =
          (normalizeRow demoTzdb tzLA (c6Pre ++ ("Event", none) :: [])).map Prod.fst) ∧
        (parseEvents (c6Pre ++ ("Event", some "BADVALUE") :: [])).1 =
          (parseEvents (c6Pre ++ ("Event", none) :: [])).1 ∧
        (parseEvents (c6Pre ++ ("Event", some "BADVALUE") :: [])).2 =
          (parseEvents c6Pre).2 ++ warnMsg "BADVALUE" :: (parseEvents ([] : RowCells)).2 ∧
        (parseEvents (c6Pre ++ ("Event", none) :: [])).2 =
          (parseEvents c6Pre).2 ++ (parseEvents ([] : RowCells)).2) :=
  ⟨by decide, by decide, by decide,
   C6_bad_event_recoverable demoTzdb tzLA c6Pre [] "Event" "BADVALUE"
     (by decide) (by decide) (by decide)⟩

end SleepPipeline
